import Mathlib

/-!
Shallow embedding of the ricktrader-web scanning engine, translated from
`app/services/scanner/signal_generator.py`, `app/services/scanner/auto_scanner.py`,
`app/services/scanner/iqoption_scanner.py`, `app/services/scanner/iqoption_client.py`
and `app/services/iqoption/session_manager.py`.

Python floats are modelled as rationals (the operations used are exact: +, *,
min, max, abs, comparison, division by a nonzero price), `datetime` instants as
microseconds-since-epoch naturals, pydantic models as structures, Python dicts
as association lists.  Calls into the stateless indicator/detector collaborators
(`TechnicalIndicators`, `PriceActionDetector.detect_patterns`,
`SupportResistanceDetector.detect_levels`) are passed to the embedded pipeline
as explicit arguments holding the values those calls returned, so the theorems
quantify over every possible collaborator answer.
-/

namespace RickTrader

/-- The `sensitivity` literal of `ScanConfig` (app/models/schemas.py line 97). -/
inductive Sensitivity where
  | conservative
  | moderate
  | aggressive
  deriving DecidableEq, Repr

/-- The `mode` literal of `ScanConfig` (app/models/schemas.py line 94). -/
inductive Mode where
  | manual
  | auto
  deriving DecidableEq, Repr

/-- The `direction` literal of `TradingSignal` (app/models/schemas.py line 81). -/
inductive Direction where
  | CALL
  | PUT
  deriving DecidableEq, Repr

/-- The `type` literal of `SupportResistanceLevel` (app/models/schemas.py line 70). -/
inductive LevelType where
  | support
  | resistance
  deriving DecidableEq, Repr

/-- Return values of `TechnicalIndicators.detect_trend`
(app/services/indicators/technical_indicators.py lines 83-107). -/
inductive Trend where
  | bullish
  | bearish
  | neutral
  deriving DecidableEq, Repr

/-- The `pattern_type` literal of `PriceActionPattern`
(app/models/schemas.py lines 54-62): the only pattern kinds the detector and
the aggressive-mode synthesis ever construct. -/
inductive PatternType where
  | pin_bar
  | engulfing_bullish
  | engulfing_bearish
  | inside_bar
  | doji
  | bos_bullish
  | bos_bearish
  deriving DecidableEq, Repr

/-- `PriceActionPattern` (app/models/schemas.py lines 53-64). -/
structure PriceActionPattern where
  pattern_type : PatternType
  description : String
  candle_index : Nat
  deriving DecidableEq, Repr

/-- `SupportResistanceLevel` (app/models/schemas.py lines 68-72). -/
structure SupportResistanceLevel where
  level : ℚ
  type : LevelType
  strength : Nat
  touches : Nat
  deriving DecidableEq, Repr

/-- `ScanConfig` (app/models/schemas.py lines 93-102).  The optional
`symbols` allowlist is a plain list: `[]` plays the falsy role that both
`None` and an empty list play in the Python truth tests `self.config.symbols`. -/
structure ScanConfig where
  mode : Mode
  symbols : List String
  timeframe : Nat
  sensitivity : Sensitivity
  use_volume_filter : Bool
  use_volatility_filter : Bool
  use_trend_filter : Bool
  only_otc : Bool
  only_open_market : Bool
  deriving DecidableEq, Repr

/-- One OHLCV row of the candle DataFrame handed to
`SignalGenerator.generate_signal` (columns open/high/low/close/volume; the
DataFrame index timestamp is only ever used as a row label, so it is dropped). -/
structure Candle where
  open_ : ℚ
  high : ℚ
  low : ℚ
  close : ℚ
  volume : ℚ
  deriving DecidableEq, Repr

/-- One confluence reason as built by `SignalGenerator._calculate_confluences`
(signal_generator.py lines 213-260) and the two fallback reasons appended by
`generate_signal` (lines 113-116).  The Python code stores formatted strings;
only their identity and count matter downstream, so each reason is kept as a
tagged value carrying the data interpolated into the corresponding string. -/
inductive Confluence where
  | patternDesc (description : String)
  | srLevelNote (type : LevelType) (level : ℚ) (strength : Nat)
  | trendNote (trend : Trend)
  | volumeNote
  | rsiOversold (value : ℚ)
  | rsiOverbought (value : ℚ)
  | macdBullish
  | macdBearish
  | immediateMomentum
  | aggressiveMode
  deriving DecidableEq, Repr

/-- `TradingSignal` (app/models/schemas.py lines 76-89).  Timestamps are
microseconds since the epoch. -/
structure TradingSignal where
  signal_id : String
  timestamp : Nat
  symbol : String
  timeframe : Nat
  direction : Direction
  entry_price : ℚ
  entry_time : Nat
  expiry_time : Nat
  pattern : PriceActionPattern
  support_resistance : Option SupportResistanceLevel
  confluences : List Confluence
  confidence : ℚ
  expiry_minutes : Nat
  deriving DecidableEq, Repr

/-- The values returned by the stateless detector/indicator calls that
`SignalGenerator.generate_signal` makes on the candle DataFrame:
`detected_patterns` is `pattern_detector.detect_patterns(df)` (on the padded
DataFrame when aggressive-mode padding ran), `sr_levels` is
`sr_detector.detect_levels(df)`, `rsi_last` is the last entry of
`indicators.calculate_rsi(df)` when that series is nonempty (a pandas NaN
behaves, in every comparison the generator makes with it, like any value in
the interval 50..60, so a rational suffices), `trend` is
`indicators.detect_trend(df)`, `volume_increasing` is
`indicators.is_volume_increasing(df)`, `high_volatility` is
`indicators.is_high_volatility(df, threshold=2.0)` and `macd_last` is the pair
of last entries of the MACD and signal-line series from
`indicators.calculate_macd(df)` when both have length above one. -/
structure MarketReads where
  detected_patterns : List PriceActionPattern
  sr_levels : List SupportResistanceLevel
  rsi_last : Option ℚ
  trend : Trend
  volume_increasing : Bool
  high_volatility : Bool
  macd_last : Option (ℚ × ℚ)
  deriving DecidableEq, Repr

/-- Placeholder candle handed to `List.getLastD`; every use is guarded by a
nonemptiness check mirroring the Python guards, so it is never observed. -/
def zeroCandle : Candle :=
  { open_ := 0, high := 0, low := 0, close := 0, volume := 0 }

/-- `df.iloc[-1]` on the candle DataFrame. -/
def ilocLast (df : List Candle) : Candle :=
  df.getLastD zeroCandle

/-- `df.iloc[-2]` on the candle DataFrame. -/
def ilocSecondLast (df : List Candle) : Candle :=
  df.dropLast.getLastD zeroCandle

/-- `SupportResistanceDetector.is_near_level` (support_resistance.py lines
147-163): first level whose relative distance to the price is within the
tolerance; `(False, None)` when there is none. -/
def is_near_level (price : ℚ) (levels : List SupportResistanceLevel)
    (tolerance : ℚ) : Bool × Option SupportResistanceLevel :=
  match levels with
  | [] => (false, none)
  | l :: rest =>
      if |price - l.level| / price ≤ tolerance then (true, some l)
      else is_near_level price rest tolerance

/-- `SignalGenerator._determine_direction` (signal_generator.py lines 150-183).
The `sr_level` argument is accepted and ignored exactly as in the source; the
RSI series value and the trend classifier result are the `rsi_last` and
`trend` collaborator reads (`rsi_last = none` models the `len(rsi) == 0`
branch). -/
def determine_direction (pattern : PriceActionPattern)
    (sr_level : Option SupportResistanceLevel) (rsi_last : Option ℚ)
    (trend : Trend) : Option Direction :=
  if pattern.pattern_type = .pin_bar ∨ pattern.pattern_type = .engulfing_bullish
      ∨ pattern.pattern_type = .bos_bullish then
    some .CALL
  else if pattern.pattern_type = .engulfing_bearish
      ∨ pattern.pattern_type = .bos_bearish then
    some .PUT
  else if pattern.pattern_type = .doji then
    match rsi_last with
    | some rsi_value => some (if rsi_value < 50 then .CALL else .PUT)
    | none => some .CALL
  else if pattern.pattern_type = .inside_bar then
    if trend = .bearish then some .PUT else some .CALL
  else
    some .CALL

/-- Lines 97-102 of `SignalGenerator.generate_signal`: take the direction from
`_determine_direction`, and when it resolved to nothing fall back to comparing
the last two closes in aggressive mode, otherwise to no signal. -/
def resolve_direction (config : ScanConfig) (df : List Candle)
    (pattern : PriceActionPattern) (sr_level : Option SupportResistanceLevel)
    (rsi_last : Option ℚ) (trend : Trend) : Option Direction :=
  match determine_direction pattern sr_level rsi_last trend with
  | some d => some d
  | none =>
      if config.sensitivity = .aggressive then
        some (if (ilocLast df).close ≥ (ilocSecondLast df).close then .CALL else .PUT)
      else none

/-- `SignalGenerator._apply_filters` (signal_generator.py lines 185-211). -/
def apply_filters (config : ScanConfig) (reads : MarketReads)
    (direction : Direction) : Bool :=
  if config.sensitivity = .aggressive then true
  else if config.use_volume_filter ∧ ¬reads.volume_increasing then false
  else if config.use_volatility_filter ∧ reads.high_volatility then false
  else if config.use_trend_filter
      ∧ ((direction = .CALL ∧ reads.trend = .bearish)
          ∨ (direction = .PUT ∧ reads.trend = .bullish)) then false
  else true

/-- `SignalGenerator._calculate_confluences` (signal_generator.py lines
213-260). -/
def calculate_confluences (pattern : PriceActionPattern)
    (sr_level : Option SupportResistanceLevel) (reads : MarketReads)
    (direction : Direction) : List Confluence :=
  let confluences := [Confluence.patternDesc pattern.description]
  let confluences := confluences ++
    (match sr_level with
     | some l => [Confluence.srLevelNote l.type l.level l.strength]
     | none => [])
  let confluences := confluences ++
    (if (direction = .CALL ∧ reads.trend = .bullish)
        ∨ (direction = .PUT ∧ reads.trend = .bearish) then
      [Confluence.trendNote reads.trend]
     else [])
  let confluences := confluences ++
    (if reads.volume_increasing then [Confluence.volumeNote] else [])
  let confluences := confluences ++
    (match reads.rsi_last with
     | some rsi_value =>
        if direction = .CALL ∧ rsi_value < 40 then [Confluence.rsiOversold rsi_value]
        else if direction = .PUT ∧ rsi_value > 60 then [Confluence.rsiOverbought rsi_value]
        else []
     | none => [])
  let confluences := confluences ++
    (match reads.macd_last with
     | some (macd_line, signal_line) =>
        if direction = .CALL ∧ macd_line > signal_line then [Confluence.macdBullish]
        else if direction = .PUT ∧ macd_line < signal_line then [Confluence.macdBearish]
        else []
     | none => [])
  confluences

/-- `SignalGenerator._calculate_confidence` (signal_generator.py lines
262-287). -/
def calculate_confidence (config : ScanConfig) (confluences : List Confluence)
    (pattern : PriceActionPattern)
    (sr_level : Option SupportResistanceLevel) : ℚ :=
  let confidence : ℚ := 50
  let confidence := confidence + (confluences.length : ℚ) * 5
  let confidence :=
    if pattern.pattern_type = .engulfing_bullish
        ∨ pattern.pattern_type = .engulfing_bearish then confidence + 15
    else if pattern.pattern_type = .bos_bullish
        ∨ pattern.pattern_type = .bos_bearish then confidence + 10
    else confidence
  let confidence :=
    match sr_level with
    | some l => confidence + (l.strength : ℚ) * 3
    | none => confidence
  let confidence :=
    if config.sensitivity = .aggressive then max confidence 55 else confidence
  min confidence 95

/-- Microseconds in one minute, the unit of `timedelta(minutes=1)`. -/
def usPerMinute : Nat := 60000000

/-- `(now + timedelta(minutes=1)).replace(second=0, microsecond=0)`
(signal_generator.py line 124): the next full-minute boundary. -/
def next_minute (now : Nat) : Nat :=
  ((now + usPerMinute) / usPerMinute) * usPerMinute

/-- The aggressive-mode padding loop of `generate_signal` (signal_generator.py
lines 64-68): duplicate the last candle until the minimum count is reached. -/
def padCandles (df : List Candle) (min_candles : Nat) : List Candle :=
  df ++ List.replicate (min_candles - df.length) (ilocLast df)

/-- `SignalGenerator.generate_signal` from line 70 on (after the
minimum-candle guard): pattern selection with the aggressive momentum
synthesis of lines 72-83, support/resistance proximity, direction resolution,
filters, confluences, confidence and timing. -/
def generate_signal_from (config : ScanConfig) (symbol : String)
    (df : List Candle) (reads : MarketReads) (now : Nat) (uuid : String) :
    Option TradingSignal :=
  let patterns :=
    if reads.detected_patterns = [] ∧ config.sensitivity = .aggressive then
      let last := ilocLast df
      [{ pattern_type := if last.close ≥ last.open_ then .bos_bullish else .bos_bearish,
         description := "Momentum imediato detectado",
         candle_index := df.length - 1 }]
    else reads.detected_patterns
  if patterns = [] then none
  else
    let pattern := patterns.getLastD
      { pattern_type := .doji, description := "", candle_index := 0 }
    let current_price := (ilocLast df).close
    let near := is_near_level current_price reads.sr_levels (1 / 1000)
    let is_near := near.1
    let sr_level := near.2
    match resolve_direction config df pattern sr_level reads.rsi_last reads.trend with
    | none => none
    | some direction =>
        let filters_ok := apply_filters config reads direction
        if ¬filters_ok ∧ config.sensitivity ≠ .aggressive then none
        else
          let confluences := calculate_confluences pattern sr_level reads direction
          let confluences :=
            if confluences = [] then confluences ++ [Confluence.immediateMomentum]
            else confluences
          let confluences :=
            if config.sensitivity = .aggressive then
              confluences ++ [Confluence.aggressiveMode]
            else confluences
          let confidence := calculate_confidence config confluences pattern sr_level
          let entry_buffer := if config.sensitivity = .aggressive then 1 else 0
          let entry_time := next_minute now + entry_buffer * usPerMinute
          let expiry_minutes := max config.timeframe 2
          let expiry_time := entry_time + expiry_minutes * usPerMinute
          some
            { signal_id := uuid
              timestamp := now
              symbol := symbol
              timeframe := config.timeframe
              direction := direction
              entry_price := current_price
              entry_time := entry_time
              expiry_time := expiry_time
              pattern := pattern
              support_resistance :=
                match sr_level, is_near with
                | some l, true => some l
                | _, _ => none
              confluences := confluences
              confidence := confidence
              expiry_minutes := expiry_minutes }

/-- `SignalGenerator.generate_signal` (signal_generator.py lines 42-148): the
minimum-candle guard of lines 57-68 followed by `generate_signal_from`.  `now`
is `datetime.now()` in microseconds and `uuid` the freshly drawn
`uuid.uuid4()` string. -/
def generate_signal (config : ScanConfig) (symbol : String)
    (df : List Candle) (reads : MarketReads) (now : Nat) (uuid : String) :
    Option TradingSignal :=
  let min_candles := if config.sensitivity = .aggressive then 5 else 50
  if df.length < min_candles then
    if config.sensitivity ≠ .aggressive then none
    else if df.length = 0 then none
    else generate_signal_from config symbol (padCandles df min_candles) reads now uuid
  else generate_signal_from config symbol df reads now uuid

/-- The pattern bonus of `_calculate_confidence` (signal_generator.py lines
274-278): +15 for an engulfing pattern, +10 for a break of structure. -/
def pattern_bonus (p : PriceActionPattern) : ℚ :=
  if p.pattern_type = .engulfing_bullish ∨ p.pattern_type = .engulfing_bearish then 15
  else if p.pattern_type = .bos_bullish ∨ p.pattern_type = .bos_bearish then 10
  else 0

/-- The support/resistance bonus of `_calculate_confidence` (lines 280-282):
three times the attached level strength. -/
def level_bonus (sr : Option SupportResistanceLevel) : ℚ :=
  match sr with
  | some l => (l.strength : ℚ) * 3
  | none => 0

/-- The unclamped confidence of a signal, recomputed from its own stored
fields: base 50, +5 per confluence reason, the pattern bonus and the level
bonus. -/
def raw_confidence (sig : TradingSignal) : ℚ :=
  50 + (sig.confluences.length : ℚ) * 5 + pattern_bonus sig.pattern
    + level_bonus sig.support_resistance

lemma is_near_level_spec (p : ℚ) (ls : List SupportResistanceLevel) (t : ℚ) :
    is_near_level p ls t = (false, none)
    ∨ ∃ l, is_near_level p ls t = (true, some l) := by
  induction ls with
  | nil => exact Or.inl rfl
  | cons l rest ih =>
      by_cases hc : |p - l.level| / p ≤ t
      · exact Or.inr ⟨l, by simp [is_near_level, hc]⟩
      · simpa [is_near_level, hc] using ih

lemma calculate_confidence_eq (c : ScanConfig) (cs : List Confluence)
    (p : PriceActionPattern) (sr : Option SupportResistanceLevel) :
    calculate_confidence c cs p sr =
      min (if c.sensitivity = .aggressive
           then max (50 + (cs.length : ℚ) * 5 + pattern_bonus p + level_bonus sr) 55
           else 50 + (cs.length : ℚ) * 5 + pattern_bonus p + level_bonus sr) 95 := by
  unfold calculate_confidence pattern_bonus level_bonus
  rcases sr with _ | l <;> split_ifs <;> ring_nf

lemma calculate_confidence_bounds (c : ScanConfig) (cs : List Confluence)
    (p : PriceActionPattern) (sr : Option SupportResistanceLevel) :
    0 ≤ calculate_confidence c cs p sr ∧ calculate_confidence c cs p sr ≤ 95
      ∧ (c.sensitivity = .aggressive → 55 ≤ calculate_confidence c cs p sr) := by
  have hlen : (0 : ℚ) ≤ (cs.length : ℚ) * 5 := by positivity
  have hpat : (0 : ℚ) ≤ pattern_bonus p := by
    unfold pattern_bonus; split_ifs <;> norm_num
  have hlev : (0 : ℚ) ≤ level_bonus sr := by
    unfold level_bonus; rcases sr with _ | l
    · norm_num
    · positivity
  have hraw : (50 : ℚ) ≤ 50 + (cs.length : ℚ) * 5 + pattern_bonus p + level_bonus sr := by
    linarith
  rw [calculate_confidence_eq]
  refine ⟨?_, min_le_right _ _, ?_⟩
  · refine le_min ?_ (by norm_num)
    split_ifs
    · exact le_trans (by norm_num) (le_max_right _ _)
    · linarith
  · intro hagg
    simp only [hagg, if_pos]
    exact le_min (le_max_right _ _) (by norm_num)

lemma generate_signal_some {c : ScanConfig} {s : String} {df : List Candle}
    {r : MarketReads} {now : Nat} {u : String} {sig : TradingSignal}
    (h : generate_signal c s df r now u = some sig) :
    ∃ df2, generate_signal_from c s df2 r now u = some sig := by
  simp only [generate_signal] at h
  repeat' split at h
  all_goals first
    | exact absurd h (by simp)
    | exact ⟨_, h⟩

lemma generate_signal_from_fields {c : ScanConfig} {s : String}
    {df : List Candle} {r : MarketReads} {now : Nat} {u : String}
    {sig : TradingSignal}
    (h : generate_signal_from c s df r now u = some sig) :
    sig.confidence
        = calculate_confidence c sig.confluences sig.pattern sig.support_resistance
      ∧ sig.timestamp = now
      ∧ sig.entry_time
        = next_minute now + (if c.sensitivity = .aggressive then 1 else 0) * usPerMinute
      ∧ sig.expiry_minutes = max c.timeframe 2
      ∧ sig.expiry_time = sig.entry_time + sig.expiry_minutes * usPerMinute := by
  rcases is_near_level_spec ((ilocLast df).close) r.sr_levels (1 / 1000) with h0 | ⟨l, h0⟩ <;>
    · simp only [generate_signal_from, h0] at h
      repeat' split at h
      all_goals try (exact Option.noConfusion h)
      all_goals injection h with h2
      all_goals subst h2
      all_goals refine ⟨rfl, rfl, ?_, rfl, rfl⟩
      all_goals split
      all_goals simp_all

/-- C1: every signal produced by `SignalGenerator.generate_signal` carries
confidence equal to base 50, plus 5 per confluence reason, plus the pattern
bonus (15 engulfing, 10 break of structure), plus 3 times the attached
level's strength, floored at 55 in aggressive mode and capped at 95; hence
its confidence lies in the interval 0..95, and is at least 55 whenever the
sensitivity is aggressive. -/
theorem generated_signal_confidence (c : ScanConfig) (s : String)
    (df : List Candle) (r : MarketReads) (now : Nat) (u : String)
    (sig : TradingSignal) (h : generate_signal c s df r now u = some sig) :
    sig.confidence =
        min (if c.sensitivity = .aggressive
             then max (raw_confidence sig) 55 else raw_confidence sig) 95
      ∧ 0 ≤ sig.confidence ∧ sig.confidence ≤ 95
      ∧ (c.sensitivity = .aggressive → 55 ≤ sig.confidence) := by
  obtain ⟨df2, h2⟩ := generate_signal_some h
  obtain ⟨hconf, -, -, -, -⟩ := generate_signal_from_fields h2
  obtain ⟨b0, b1, b2⟩ :=
    calculate_confidence_bounds c sig.confluences sig.pattern sig.support_resistance
  refine ⟨?_, ?_, ?_, ?_⟩
  · rw [hconf, calculate_confidence_eq]
    rfl
  · rw [hconf]
    exact b0
  · rw [hconf]
    exact b1
  · intro ha
    rw [hconf]
    exact b2 ha

/-- C2: every signal produced by `SignalGenerator.generate_signal` is stamped
with the generation instant, has an entry time strictly in the future (the
next full-minute boundary, plus one extra minute in aggressive mode), expiry
minutes equal to `max(timeframe, 2)`, and an expiry time exactly
`expiry_minutes` minutes after the entry time. -/
theorem generated_signal_timing (c : ScanConfig) (s : String)
    (df : List Candle) (r : MarketReads) (now : Nat) (u : String)
    (sig : TradingSignal) (h : generate_signal c s df r now u = some sig) :
    sig.timestamp = now
      ∧ sig.timestamp < sig.entry_time
      ∧ sig.entry_time
        = next_minute now + (if c.sensitivity = .aggressive then 1 else 0) * usPerMinute
      ∧ sig.expiry_minutes = max c.timeframe 2
      ∧ sig.expiry_time = sig.entry_time + sig.expiry_minutes * usPerMinute := by
  obtain ⟨df2, h2⟩ := generate_signal_some h
  obtain ⟨-, hts, hentry, hexpm, hexp⟩ := generate_signal_from_fields h2
  have hnm : now < next_minute now := by
    unfold next_minute usPerMinute
    have hdm := Nat.div_add_mod (now + 60000000) 60000000
    have hlt : (now + 60000000) % 60000000 < 60000000 := Nat.mod_lt _ (by norm_num)
    omega
  refine ⟨hts, ?_, hentry, hexpm, hexp⟩
  rw [hts, hentry]
  exact lt_of_lt_of_le hnm (Nat.le_add_right _ _)

/-- Closed witness for C2 at a concrete aggressive-mode input. -/
def cfgAggressive : ScanConfig :=
  { mode := .auto, symbols := [], timeframe := 1, sensitivity := .aggressive,
    use_volume_filter := true, use_volatility_filter := true,
    use_trend_filter := true, only_otc := false, only_open_market := false }

/-- A bullish candle used by the concrete witnesses. -/
def candleUp : Candle := { open_ := 1, high := 2, low := 1, close := 2, volume := 1 }

/-- Five bullish candles: meets the aggressive-mode minimum candle count. -/
def dfWitness : List Candle := List.replicate 5 candleUp

/-- Collaborator reads for the concrete witnesses: no detected patterns (the
aggressive momentum synthesis fires), no levels, RSI 50, neutral trend. -/
def readsWitness : MarketReads :=
  { detected_patterns := [], sr_levels := [], rsi_last := some 50,
    trend := .neutral, volume_increasing := false, high_volatility := false,
    macd_last := none }

lemma generate_signal_witness_isSome :
    (generate_signal cfgAggressive "EURUSD" dfWitness readsWitness 0 "sig-1").isSome
      = true := rfl

/-- The signal `generate_signal` produces on the witness input at instant 0. -/
def sigWitness : TradingSignal :=
  (generate_signal cfgAggressive "EURUSD" dfWitness readsWitness 0 "sig-1").get
    generate_signal_witness_isSome

lemma generate_signal_witness_eq :
    generate_signal cfgAggressive "EURUSD" dfWitness readsWitness 0 "sig-1"
      = some sigWitness :=
  (Option.some_get generate_signal_witness_isSome).symm

/-- Witness for C1: the confidence bounds hold on the concrete witness signal. -/
theorem generated_signal_confidence_witness :
    0 ≤ sigWitness.confidence ∧ sigWitness.confidence ≤ 95
      ∧ 55 ≤ sigWitness.confidence :=
  have h := generated_signal_confidence cfgAggressive "EURUSD" dfWitness
    readsWitness 0 "sig-1" sigWitness generate_signal_witness_eq
  ⟨h.2.1, h.2.2.1, h.2.2.2 rfl⟩

/-- Witness for C2: the timing equations hold on the concrete witness signal. -/
theorem generated_signal_timing_witness :
    sigWitness.timestamp < sigWitness.entry_time
      ∧ sigWitness.expiry_minutes = 2
      ∧ sigWitness.expiry_time
        = sigWitness.entry_time + sigWitness.expiry_minutes * usPerMinute :=
  have h := generated_signal_timing cfgAggressive "EURUSD" dfWitness
    readsWitness 0 "sig-1" sigWitness generate_signal_witness_eq
  ⟨h.2.1, h.2.2.2.1, h.2.2.2.2⟩

/-- C5: the direction mapping of `SignalGenerator._determine_direction` and
the fallback of `generate_signal` lines 97-102: pin bar, bullish engulfing
and bullish break of structure give CALL; bearish engulfing and bearish break
of structure give PUT; a doji follows RSI(14) below 50 to CALL and otherwise
PUT; an inside bar follows the trend classifier (bearish gives PUT, anything
else CALL); and whenever no direction is resolved, the signal direction falls
back to comparing the last two closes in aggressive mode and to no signal
otherwise. -/
theorem direction_resolution (p : PriceActionPattern)
    (srl : Option SupportResistanceLevel) (rsi : Option ℚ) (t : Trend)
    (c : ScanConfig) (df : List Candle) :
    (p.pattern_type = .pin_bar ∨ p.pattern_type = .engulfing_bullish
        ∨ p.pattern_type = .bos_bullish →
          determine_direction p srl rsi t = some .CALL)
      ∧ (p.pattern_type = .engulfing_bearish ∨ p.pattern_type = .bos_bearish →
          determine_direction p srl rsi t = some .PUT)
      ∧ (p.pattern_type = .doji → ∀ v, rsi = some v →
          determine_direction p srl rsi t
            = some (if v < 50 then .CALL else .PUT))
      ∧ (p.pattern_type = .inside_bar →
          determine_direction p srl rsi t
            = (if t = .bearish then some .PUT else some .CALL))
      ∧ (determine_direction p srl rsi t = none →
          resolve_direction c df p srl rsi t
            = (if c.sensitivity = .aggressive then
                 some (if (ilocLast df).close ≥ (ilocSecondLast df).close
                       then .CALL else .PUT)
               else none))
      ∧ (∀ d, determine_direction p srl rsi t = some d →
          resolve_direction c df p srl rsi t = some d) := by
  refine ⟨?_, ?_, ?_, ?_, ?_, ?_⟩
  · intro hp
    rcases hp with hp | hp | hp <;> simp [determine_direction, hp]
  · intro hp
    rcases hp with hp | hp <;> simp [determine_direction, hp]
  · intro hp v hv
    subst hv
    simp [determine_direction, hp]
  · intro hp
    simp [determine_direction, hp]
  · intro hnone
    simp [resolve_direction, hnone]
  · intro d hd
    simp [resolve_direction, hd]

/-- Witness for C5 at concrete patterns, RSI values and trends. -/
theorem direction_resolution_witness :
    determine_direction ⟨.pin_bar, "", 0⟩ none none .neutral = some .CALL
      ∧ determine_direction ⟨.engulfing_bearish, "", 0⟩ none none .neutral = some .PUT
      ∧ determine_direction ⟨.doji, "", 0⟩ none (some 42) .neutral = some .CALL
      ∧ determine_direction ⟨.inside_bar, "", 0⟩ none none .bearish = some .PUT
      ∧ resolve_direction cfgAggressive dfWitness ⟨.pin_bar, "", 0⟩ none none .neutral
        = some .CALL := by
  refine ⟨?_, ?_, ?_, ?_, ?_⟩
  · exact (direction_resolution ⟨.pin_bar, "", 0⟩ none none .neutral cfgAggressive []).1
      (Or.inl rfl)
  · exact (direction_resolution ⟨.engulfing_bearish, "", 0⟩ none none .neutral
      cfgAggressive []).2.1 (Or.inl rfl)
  · have h := (direction_resolution ⟨.doji, "", 0⟩ none (some 42) .neutral
      cfgAggressive []).2.2.1 rfl 42 rfl
    simpa using h
  · have h := (direction_resolution ⟨.inside_bar, "", 0⟩ none none .bearish
      cfgAggressive []).2.2.2.1 rfl
    simpa using h
  · exact (direction_resolution ⟨.pin_bar, "", 0⟩ none none .neutral cfgAggressive
      dfWitness).2.2.2.2.2 .CALL
      ((direction_resolution ⟨.pin_bar, "", 0⟩ none none .neutral cfgAggressive
        dfWitness).1 (Or.inl rfl))

/-- Lookup in a Python dict modelled as an association list
(`d.get(k)` / `d[k]`). -/
def lookupA {α : Type} (k : String) : List (String × α) → Option α
  | [] => none
  | (k2, v) :: rest => if k2 = k then some v else lookupA k rest

/-- Key removal in a Python dict modelled as an association list
(`d.pop(k, None)` / `del d[k]`). -/
def eraseA {α : Type} (k : String) : List (String × α) → List (String × α)
  | [] => []
  | (k2, v) :: rest => if k2 = k then eraseA k rest else (k2, v) :: eraseA k rest

/-- Key assignment in a Python dict modelled as an association list
(`d[k] = v`). -/
def insertA {α : Type} (k : String) (v : α) (m : List (String × α)) :
    List (String × α) :=
  (k, v) :: eraseA k m

/-- The mutable per-scanner containers of `AutoScanner.__init__`
(auto_scanner.py lines 36-38): the per-symbol latest map, the ordered
history and the by-id index. -/
structure ScannerState where
  latest_signals : List (String × TradingSignal)
  signal_history : List TradingSignal
  signal_index : List (String × TradingSignal)
  deriving DecidableEq, Repr

/-- The freshly constructed `AutoScanner` containers: all empty. -/
def ScannerState.initial : ScannerState :=
  { latest_signals := [], signal_history := [], signal_index := [] }

/-- The acceptance block of `AutoScanner.start_scanning` for one new signal
(auto_scanner.py lines 69-76): record it as its symbol's latest, append it to
the history, index it by id; then, when the history exceeds 200 entries, pop
the oldest entry, drop its id from the index, and drop its symbol's latest
entry when that entry still is the evicted signal. -/
def accept_signal (st : ScannerState) (signal : TradingSignal) : ScannerState :=
  let latest := insertA signal.symbol signal st.latest_signals
  let history := st.signal_history ++ [signal]
  let index := insertA signal.signal_id signal st.signal_index
  if 200 < history.length then
    match history with
    | [] =>
        { latest_signals := latest, signal_history := history,
          signal_index := index }
    | oldest :: rest =>
        { latest_signals :=
            if lookupA oldest.symbol latest = some oldest then
              eraseA oldest.symbol latest
            else latest
          signal_history := rest
          signal_index := eraseA oldest.signal_id index }
  else
    { latest_signals := latest, signal_history := history,
      signal_index := index }

/-- The scanner state after a sequence of signals has been accepted by the
loop, starting from the freshly constructed containers. -/
def acceptAll (sigs : List TradingSignal) : ScannerState :=
  sigs.foldl accept_signal ScannerState.initial

/-- The last signal with the given symbol in a history list, if any: the
value the per-symbol latest map must hold for that symbol. -/
def lastOcc (X : String) : List TradingSignal → Option TradingSignal
  | [] => none
  | t :: rest =>
      match lastOcc X rest with
      | some u => some u
      | none => if t.symbol = X then some t else none

/-- The duplicate check of `AutoScanner._scan_pair` (auto_scanner.py lines
160-171): a freshly generated signal for a symbol is dropped exactly when the
symbol's latest accepted signal was generated less than fifteen seconds
earlier (timestamps in microseconds) and has the identical direction. -/
def scan_pair_dedup (latest_signals : List (String × TradingSignal))
    (symbol : String) (signal : TradingSignal) : Option TradingSignal :=
  match lookupA symbol latest_signals with
  | some prev_signal =>
      if (signal.timestamp : ℤ) - (prev_signal.timestamp : ℤ) < 15000000
          ∧ signal.direction = prev_signal.direction then none
      else some signal
  | none => some signal

/-- `AutoScanner.get_latest_signals` (auto_scanner.py lines 177-193): the
most recent history entries above the confidence floor, newest first, capped
at the limit.  The unchanged state is returned alongside to record that the
call mutates nothing. -/
def get_latest_signals (st : ScannerState) (limit : Nat) (min_confidence : ℚ) :
    List TradingSignal × ScannerState :=
  ((st.signal_history.reverse.filter
      (fun s => min_confidence ≤ s.confidence)).take limit, st)

lemma lookupA_eraseA {α : Type} (k x : String) (m : List (String × α)) :
    lookupA x (eraseA k m) = if k = x then none else lookupA x m := by
  induction m with
  | nil => simp [eraseA, lookupA]
  | cons p rest ih =>
      obtain ⟨k2, v⟩ := p
      by_cases h1 : k2 = k <;> by_cases h2 : k2 = x <;> by_cases h3 : k = x <;>
        simp_all [eraseA, lookupA]

lemma lookupA_insertA {α : Type} (k x : String) (v : α)
    (m : List (String × α)) :
    lookupA x (insertA k v m) = if k = x then some v else lookupA x m := by
  simp only [insertA, lookupA, lookupA_eraseA]
  split_ifs <;> simp_all

lemma lastOcc_append_single (X : String) (h : List TradingSignal)
    (s : TradingSignal) :
    lastOcc X (h ++ [s]) = if s.symbol = X then some s else lastOcc X h := by
  induction h with
  | nil =>
      simp [lastOcc]
  | cons t rest ih =>
      simp only [List.cons_append, lastOcc, List.append_eq, ih]
      split_ifs <;> rfl

lemma lastOcc_mem {X : String} {h : List TradingSignal} {u : TradingSignal}
    (he : lastOcc X h = some u) : u ∈ h ∧ u.symbol = X := by
  induction h with
  | nil => exact absurd he (by simp [lastOcc])
  | cons t rest ih =>
      simp only [lastOcc] at he
      rcases hr : lastOcc X rest with _ | w
      · rw [hr] at he
        split_ifs at he with hs
        · obtain rfl := Option.some.inj he
          exact ⟨List.mem_cons_self _ _, hs⟩
      · rw [hr] at he
        obtain rfl := Option.some.inj he
        obtain ⟨hm, hx⟩ := ih hr
        exact ⟨List.mem_cons_of_mem _ hm, hx⟩

lemma lastOcc_isSome_of_mem {X : String} {h : List TradingSignal}
    {u : TradingSignal} (hm : u ∈ h) (hx : u.symbol = X) :
    lastOcc X h ≠ none := by
  induction h with
  | nil => cases hm
  | cons t rest ih =>
      simp only [lastOcc]
      rcases hr : lastOcc X rest with _ | w
      · rcases List.mem_cons.1 hm with rfl | hm2
        · simp [hx]
        · exact absurd hr (ih hm2)
      · simp

lemma lastOcc_cons_of_tail_none {X : String} {t : TradingSignal}
    {rest : List TradingSignal} (hr : lastOcc X rest = none) :
    lastOcc X (t :: rest) = if t.symbol = X then some t else none := by
  simp [lastOcc, hr]

lemma lastOcc_cons_of_tail_some {X : String} {t u : TradingSignal}
    {rest : List TradingSignal} (hr : lastOcc X rest = some u) :
    lastOcc X (t :: rest) = some u := by
  simp [lastOcc, hr]

lemma lastOcc_cons_of_ne {X : String} {t : TradingSignal}
    {rest : List TradingSignal} (hne : ¬t.symbol = X) :
    lastOcc X (t :: rest) = lastOcc X rest := by
  rcases hr : lastOcc X rest with _ | u <;> simp [lastOcc, hr, hne]

lemma accept_signal_keep {st : ScannerState} {s : TradingSignal}
    (hlen : ¬200 < st.signal_history.length + 1) :
    accept_signal st s =
      { latest_signals := insertA s.symbol s st.latest_signals
        signal_history := st.signal_history ++ [s]
        signal_index := insertA s.signal_id s st.signal_index } := by
  simp only [accept_signal]
  rw [if_neg (by simpa using hlen)]

lemma accept_signal_evict {st : ScannerState} {s oldest : TradingSignal}
    {tl : List TradingSignal} (hh : st.signal_history = oldest :: tl)
    (hlen : 200 < st.signal_history.length + 1) :
    accept_signal st s =
      { latest_signals :=
          if lookupA oldest.symbol (insertA s.symbol s st.latest_signals)
              = some oldest then
            eraseA oldest.symbol (insertA s.symbol s st.latest_signals)
          else insertA s.symbol s st.latest_signals
        signal_history := tl ++ [s]
        signal_index :=
          eraseA oldest.signal_id (insertA s.signal_id s st.signal_index) } := by
  have hc : 200 < (oldest :: (tl ++ [s])).length := by
    rw [hh] at hlen
    simpa using hlen
  simp only [accept_signal, hh, List.cons_append]
  rw [if_pos hc]

lemma insert_latest_lastOcc {st : ScannerState} {s : TradingSignal}
    (hlat : ∀ X, lookupA X st.latest_signals = lastOcc X st.signal_history)
    (X : String) :
    lookupA X (insertA s.symbol s st.latest_signals)
      = lastOcc X (st.signal_history ++ [s]) := by
  rw [lookupA_insertA, lastOcc_append_single, hlat]

lemma accept_signal_inv {st : ScannerState} {s : TradingSignal}
    {acc : List TradingSignal}
    (hsub : st.signal_history.Sublist acc)
    (hlen : st.signal_history.length ≤ 200)
    (hlat : ∀ X, lookupA X st.latest_signals = lastOcc X st.signal_history)
    (hnd : (acc ++ [s]).Nodup) :
    (accept_signal st s).signal_history.Sublist (acc ++ [s])
      ∧ (accept_signal st s).signal_history.length ≤ 200
      ∧ ∀ X, lookupA X (accept_signal st s).latest_signals
          = lastOcc X (accept_signal st s).signal_history := by
  have hndh : (st.signal_history ++ [s]).Nodup :=
    hnd.sublist (hsub.append (List.Sublist.refl [s]))
  by_cases hcase : 200 < st.signal_history.length + 1
  · obtain ⟨oldest, tl, hh⟩ : ∃ o t, st.signal_history = o :: t := by
      cases hst : st.signal_history with
      | nil => rw [hst] at hcase; simp at hcase
      | cons o t => exact ⟨o, t, rfl⟩
    rw [accept_signal_evict hh hcase]
    have hinv1 : ∀ X, lookupA X (insertA s.symbol s st.latest_signals)
        = lastOcc X (oldest :: (tl ++ [s])) := by
      intro X
      have := @insert_latest_lastOcc st s hlat X
      rwa [hh, List.cons_append] at this
    have hold_notin : oldest ∉ tl ++ [s] := by
      rw [hh, List.cons_append] at hndh
      exact (List.nodup_cons.mp hndh).1
    refine ⟨?_, ?_, ?_⟩
    · have h1 : tl.Sublist st.signal_history := by
        rw [hh]; exact List.sublist_cons_self oldest tl
      exact (h1.trans hsub).append (List.Sublist.refl [s])
    · have : st.signal_history.length = tl.length + 1 := by rw [hh]; rfl
      simp only [List.length_append, List.length_singleton]
      omega
    · intro X
      split_ifs with hcond
      · rw [lookupA_eraseA]
        split_ifs with hx
        · rcases hr : lastOcc X (tl ++ [s]) with _ | u
          · rfl
          · exfalso
            obtain ⟨hmem, hXu⟩ := lastOcc_mem hr
            have : lookupA X (insertA s.symbol s st.latest_signals) = some u := by
              rw [hinv1 X, lastOcc_cons_of_tail_some hr]
            rw [← hx] at this
            rw [hcond] at this
            obtain rfl := Option.some.inj this
            exact hold_notin hmem
        · rw [hinv1 X, lastOcc_cons_of_ne hx]
      · by_cases hx : oldest.symbol = X
        · subst hx
          rcases hr : lastOcc oldest.symbol (tl ++ [s]) with _ | u
          · exfalso
            apply hcond
            rw [hinv1 oldest.symbol, lastOcc_cons_of_tail_none hr]
            simp
          · rw [hinv1 oldest.symbol, lastOcc_cons_of_tail_some hr]
        · rw [hinv1 X, lastOcc_cons_of_ne hx]
  · rw [accept_signal_keep hcase]
    refine ⟨hsub.append (List.Sublist.refl [s]), ?_, ?_⟩
    · simp only [List.length_append, List.length_singleton]
      omega
    · exact insert_latest_lastOcc hlat

lemma acceptAll_append_singleton (l : List TradingSignal) (a : TradingSignal) :
    acceptAll (l ++ [a]) = accept_signal (acceptAll l) a := by
  simp [acceptAll, List.foldl_append]

lemma acceptAll_inv (sigs : List TradingSignal) (hnd : sigs.Nodup) :
    (acceptAll sigs).signal_history.Sublist sigs
      ∧ (acceptAll sigs).signal_history.length ≤ 200
      ∧ ∀ X, lookupA X (acceptAll sigs).latest_signals
          = lastOcc X (acceptAll sigs).signal_history := by
  induction sigs using List.reverseRecOn with
  | nil =>
      refine ⟨List.Sublist.refl [], by simp [acceptAll, ScannerState.initial], ?_⟩
      intro X
      rfl
  | append_singleton l a ih =>
      obtain ⟨hsub, hlen, hlat⟩ := ih (hnd.sublist (List.sublist_append_left l [a]))
      rw [acceptAll_append_singleton]
      exact accept_signal_inv hsub hlen hlat hnd

/-- C3: along any acceptance sequence of the AutoScanner loop (with fresh
uuid4 signal ids), the history holds at most 200 signals after every
acceptance; and when a signal is accepted while the history holds 200, the
oldest (first-appended) signal is evicted: the history becomes the old tail
followed by the new signal, the evicted id is gone from the by-id index, and
the per-symbol latest map ends up without the evicted signal's symbol exactly
when the map (after recording the new signal as its own symbol's latest)
still held the evicted signal as that symbol's latest. -/
theorem scanner_history_retention (sigs : List TradingSignal)
    (s : TradingSignal)
    (hids : ((sigs ++ [s]).map (fun t => t.signal_id)).Nodup) :
    (acceptAll (sigs ++ [s])).signal_history.length ≤ 200
      ∧ (∀ oldest rest,
          (acceptAll sigs).signal_history = oldest :: rest →
          (acceptAll sigs).signal_history.length = 200 →
            (acceptAll (sigs ++ [s])).signal_history = rest ++ [s]
            ∧ lookupA oldest.signal_id
                (acceptAll (sigs ++ [s])).signal_index = none
            ∧ (lookupA oldest.symbol
                  (acceptAll (sigs ++ [s])).latest_signals = none
                ↔ lookupA oldest.symbol
                    (insertA s.symbol s (acceptAll sigs).latest_signals)
                      = some oldest)) := by
  have hndall : (sigs ++ [s]).Nodup := hids.of_map
  have hnd : sigs.Nodup := hndall.sublist (List.sublist_append_left sigs [s])
  obtain ⟨hsub, hlen, hlat⟩ := acceptAll_inv sigs hnd
  obtain ⟨hsub2, hlen2, hlat2⟩ := acceptAll_inv (sigs ++ [s]) hndall
  refine ⟨hlen2, ?_⟩
  intro oldest rest hh hl
  rw [acceptAll_append_singleton]
  have hevict := @accept_signal_evict (acceptAll sigs) s oldest rest hh (by omega)
  rw [hevict]
  refine ⟨rfl, ?_, ?_⟩
  · rw [lookupA_eraseA, if_pos rfl]
  · have hins : lookupA oldest.symbol
        (insertA s.symbol s (acceptAll sigs).latest_signals)
        = lastOcc oldest.symbol ((acceptAll sigs).signal_history ++ [s]) :=
      @insert_latest_lastOcc (acceptAll sigs) s hlat oldest.symbol
    by_cases hcond : lookupA oldest.symbol
        (insertA s.symbol s (acceptAll sigs).latest_signals) = some oldest
    · rw [if_pos hcond, lookupA_eraseA, if_pos rfl]
      simp [hcond]
    · rw [if_neg hcond]
      have hmem : oldest ∈ (acceptAll sigs).signal_history ++ [s] := by
        rw [hh]
        exact List.mem_append_left _ (List.mem_cons_self _ _)
      have hne : lastOcc oldest.symbol
          ((acceptAll sigs).signal_history ++ [s]) ≠ none :=
        lastOcc_isSome_of_mem hmem rfl
      constructor
      · intro h0
        exact absurd (hins ▸ h0) hne
      · intro h0
        exact absurd h0 hcond

/-- Witness for C3: accepting one fresh signal into the empty scanner keeps
the history within the 200-entry bound. -/
theorem scanner_history_retention_witness :
    (acceptAll ([] ++ [sigWitness])).signal_history.length ≤ 200 :=
  (scanner_history_retention [] sigWitness (by simp)).1

/-- C4: the duplicate check of `AutoScanner._scan_pair` discards a freshly
generated signal exactly when the symbol's last accepted signal was generated
less than fifteen seconds earlier and has the identical direction; a
different direction or a gap of at least fifteen seconds always passes. -/
theorem dedup_policy (latest_signals : List (String × TradingSignal))
    (symbol : String) (s prev : TradingSignal)
    (hprev : lookupA symbol latest_signals = some prev) :
    ((s.timestamp : ℤ) - (prev.timestamp : ℤ) < 15000000
        ∧ s.direction = prev.direction →
        scan_pair_dedup latest_signals symbol s = none)
      ∧ (s.direction ≠ prev.direction
          ∨ 15000000 ≤ (s.timestamp : ℤ) - (prev.timestamp : ℤ) →
          scan_pair_dedup latest_signals symbol s = some s) := by
  have hred : scan_pair_dedup latest_signals symbol s =
      if (s.timestamp : ℤ) - (prev.timestamp : ℤ) < 15000000
          ∧ s.direction = prev.direction then none else some s := by
    unfold scan_pair_dedup
    rw [hprev]
  constructor
  · intro hcond
    rw [hred, if_pos hcond]
  · intro hcond
    rw [hred, if_neg]
    rcases hcond with h | h
    · exact fun hc => h hc.2
    · exact fun hc => absurd hc.1 (not_lt.mpr h)

/-- A plain literal signal used as the previously accepted one in the C4
witness. -/
def sigA : TradingSignal :=
  { signal_id := "id-a", timestamp := 0, symbol := "EURUSD", timeframe := 1,
    direction := .CALL, entry_price := 1, entry_time := 60000000,
    expiry_time := 180000000,
    pattern := { pattern_type := .pin_bar, description := "Pin Bar",
                 candle_index := 0 },
    support_resistance := none, confluences := [], confidence := 60,
    expiry_minutes := 2 }

/-- A same-symbol, same-direction signal generated twenty seconds after
`sigA`. -/
def sigB : TradingSignal :=
  { sigA with signal_id := "id-b", timestamp := 20000000 }

/-- A same-symbol, same-direction signal generated ten seconds after
`sigA`. -/
def sigC : TradingSignal :=
  { sigA with signal_id := "id-c", timestamp := 10000000 }

/-- Witness for C4: twenty seconds apart passes, ten seconds apart with the
same direction is suppressed. -/
theorem dedup_policy_witness :
    scan_pair_dedup [("EURUSD", sigA)] "EURUSD" sigB = some sigB
      ∧ scan_pair_dedup [("EURUSD", sigA)] "EURUSD" sigC = none := by
  constructor
  · exact (dedup_policy [("EURUSD", sigA)] "EURUSD" sigB sigA rfl).2
      (Or.inr (by norm_num [sigA, sigB]))
  · exact (dedup_policy [("EURUSD", sigA)] "EURUSD" sigC sigA rfl).1
      ⟨by norm_num [sigA, sigC], rfl⟩

/-- C10: `AutoScanner.get_latest_signals` returns only signals whose
confidence is at least the floor, returns at most `limit` of them, lists them
in reverse acceptance order (a sublist of the reversed history), and leaves
the scanner state unchanged. -/
theorem get_latest_signals_spec (st : ScannerState) (limit : Nat)
    (min_confidence : ℚ) :
    (∀ s ∈ (get_latest_signals st limit min_confidence).1,
        min_confidence ≤ s.confidence)
      ∧ (get_latest_signals st limit min_confidence).1.length ≤ limit
      ∧ (get_latest_signals st limit min_confidence).1.Sublist
          st.signal_history.reverse
      ∧ (get_latest_signals st limit min_confidence).2 = st := by
  refine ⟨?_, ?_, ?_, rfl⟩
  · intro s hs
    have hs2 := List.mem_of_mem_take hs
    have hs3 := List.of_mem_filter hs2
    simpa using hs3
  · exact List.length_take_le _ _
  · exact (List.take_sublist _ _).trans (List.filter_sublist _)

/-- Witness for C10 on a concrete state: a one-signal history queried with
limit 10 and floor 0. -/
def stWitness : ScannerState :=
  { latest_signals := [("EURUSD", sigA)], signal_history := [sigA],
    signal_index := [("id-a", sigA)] }

/-- Witness for C10: the returned list respects the limit, is a sublist of
the reversed history, and the state is returned unchanged. -/
theorem get_latest_signals_spec_witness :
    (get_latest_signals stWitness 10 0).1.length ≤ 10
      ∧ (get_latest_signals stWitness 10 0).1.Sublist
          stWitness.signal_history.reverse
      ∧ (get_latest_signals stWitness 10 0).2 = stWitness :=
  ⟨(get_latest_signals_spec stWitness 10 0).2.1,
   (get_latest_signals_spec stWitness 10 0).2.2.1,
   (get_latest_signals_spec stWitness 10 0).2.2.2⟩

/-- Python `str.upper()` on one character, for the ASCII instrument symbols
and allowlist entries this code base compares. -/
def upperChar (c : Char) : Char :=
  if 'a' ≤ c ∧ c ≤ 'z' then Char.ofNat (c.toNat - 32) else c

/-- Python `str.upper()`, modelled character-wise on the string's character
list (`String.toUpper` itself is not kernel-reducible). -/
def upperStr (s : String) : String := ⟨s.data.map upperChar⟩

/-- One entry of the pair dictionaries that `get_available_pairs` returns
(scanner/iqoption_client.py lines 576-582): symbol, OTC flag, active flag. -/
structure PairInfo where
  symbol : String
  is_otc : Bool
  is_active : Bool
  deriving DecidableEq, Repr

/-- The shared OTC/open-market filter stage (auto_scanner.py lines 106-113
and iqoption_scanner.py lines 148-151): keep only OTC instruments under
`only_otc`, drop OTC instruments under `only_open_market`, else keep all. -/
def market_filter (config : ScanConfig) (pairs : List PairInfo) :
    List PairInfo :=
  if config.only_otc then pairs.filter (fun p => p.is_otc)
  else if config.only_open_market then pairs.filter (fun p => !p.is_otc)
  else pairs

/-- `AutoScanner._get_pairs_to_scan` (auto_scanner.py lines 93-123).  The
`client.get_available_pairs` coroutine is passed in as a function of its
`include_otc` argument.  `ScanConfig` (app/models/schemas.py lines 93-102)
has no `MAX_CONCURRENT_PAIRS` attribute, so the `hasattr` branch of lines
117-118 never fires and the cap is the constant 30. -/
def get_pairs_to_scan (config : ScanConfig)
    (get_available_pairs : Bool → List PairInfo) : List PairInfo :=
  if config.mode = .manual ∧ config.symbols ≠ [] then
    (get_available_pairs true).filter (fun p => p.symbol ∈ config.symbols)
  else
    let pairs := get_available_pairs (!config.only_open_market)
    (market_filter config pairs).take 30

/-- `IQOptionScanner._get_otc_pairs` (iqoption_scanner.py lines 139-160):
activity filter, the OTC/open-market filters, then — whenever the allowlist
is non-empty, regardless of mode — the allowlist filter with both sides
uppercased. -/
def get_otc_pairs (config : ScanConfig) (pairs : List PairInfo) :
    List PairInfo :=
  let active_pairs := pairs.filter (fun p => p.is_active)
  let active_pairs := market_filter config active_pairs
  if config.symbols ≠ [] then
    active_pairs.filter
      (fun p => upperStr p.symbol ∈ config.symbols.map (fun s => upperStr s))
  else active_pairs

/-- The instrument resolution C9 claims, written from the spec sentence: keep
an instrument exactly when its symbol equals some allowlist entry ignoring
letter case. -/
def manual_allowlist_claim (symbols : List String) (pairs : List PairInfo) :
    List PairInfo :=
  pairs.filter (fun p => symbols.any (fun a => upperStr p.symbol = upperStr a))

/-- A manual-mode configuration whose allowlist entry is lowercase. -/
def cfgManualLower : ScanConfig :=
  { mode := .manual, symbols := ["eurusd"], timeframe := 1,
    sensitivity := .moderate, use_volume_filter := true,
    use_volatility_filter := true, use_trend_filter := true,
    only_otc := false, only_open_market := false }

/-- The instrument whose uppercase symbol the lowercase allowlist entry
should match under C9's case-insensitive reading. -/
def pairEURUSD : PairInfo :=
  { symbol := "EURUSD", is_otc := false, is_active := true }

/-- Counterexample to C9: in manual mode with allowlist `eurusd`,
`AutoScanner._get_pairs_to_scan` drops the instrument `EURUSD` (its
membership test is case-sensitive), while the claimed case-insensitive
intersection keeps it. -/
theorem manual_allowlist_counterexample :
    get_pairs_to_scan cfgManualLower (fun _ => [pairEURUSD]) = []
      ∧ manual_allowlist_claim ["eurusd"] [pairEURUSD] = [pairEURUSD] := by
  constructor <;> decide

/-- C9 (amended): in manual mode with a non-empty allowlist,
`AutoScanner._get_pairs_to_scan` keeps an instrument exactly when its symbol
is literally (case-sensitively) an element of the allowlist; only the
IQ Option scanner variant `_get_otc_pairs` matches case-insensitively, and it
does so after its activity and OTC filters whenever the allowlist is
non-empty. -/
theorem manual_allowlist_matching (config : ScanConfig)
    (get_available_pairs : Bool → List PairInfo) (pairs : List PairInfo)
    (hmode : config.mode = .manual) (hsym : config.symbols ≠ []) :
    (∀ p, p ∈ get_pairs_to_scan config get_available_pairs
        ↔ p ∈ get_available_pairs true ∧ p.symbol ∈ config.symbols)
      ∧ (∀ p, p ∈ get_otc_pairs config pairs
          ↔ p ∈ market_filter config (pairs.filter (fun q => q.is_active))
            ∧ ∃ a ∈ config.symbols, upperStr p.symbol = upperStr a) := by
  constructor
  · intro p
    simp [get_pairs_to_scan, hmode, hsym, List.mem_filter]
  · intro p
    simp only [get_otc_pairs, if_pos hsym, List.mem_filter, decide_eq_true_eq,
      List.mem_map]
    constructor
    · rintro ⟨hmem, a, ha, heq⟩
      exact ⟨hmem, a, ha, heq.symm⟩
    · rintro ⟨hmem, a, ha, heq⟩
      exact ⟨hmem, a, ha, heq.symm⟩

/-- Uppercase-allowlist manual configuration for the C9 witness. -/
def cfgManualUpper : ScanConfig :=
  { cfgManualLower with symbols := ["EURUSD"] }

/-- Witness for the amended C9: with the literally matching allowlist entry,
the instrument is kept by `AutoScanner._get_pairs_to_scan`. -/
theorem manual_allowlist_matching_witness :
    pairEURUSD ∈ get_pairs_to_scan cfgManualUpper (fun _ => [pairEURUSD]) :=
  ((manual_allowlist_matching cfgManualUpper (fun _ => [pairEURUSD]) []
      rfl (by decide)).1 pairEURUSD).mpr ⟨by decide, by decide⟩

/-- Lifecycle status of one per-pair fetch+generate coroutine within one
scanner cycle. -/
inductive TaskStatus where
  | pending
  | running
  | done
  deriving DecidableEq, Repr

/-- One cooperative-scheduler event in a scanner cycle: per-pair operation
`i` begins (its coroutine runs up to its awaited broker fetch) or
completes. -/
inductive TaskEvent where
  | start (i : Nat)
  | finish (i : Nat)
  deriving DecidableEq, Repr

/-- One scheduler step over the statuses of `n` per-pair operations.
Modelled from `asyncio.gather(*tasks)` at auto_scanner.py lines 54-55: all
per-pair coroutines are scheduled at once, so any pending operation may
start at any moment and any running one may finish at any moment — nothing
in that code constrains how many are running simultaneously.  A step is
`none` when the event is invalid (an operation started twice, or finished
while not running). -/
def scan_tasks_step (n : Nat) (f : Nat → TaskStatus) (e : TaskEvent) :
    Option (Nat → TaskStatus) :=
  match e with
  | .start i =>
      if i < n ∧ f i = .pending then some (Function.update f i .running)
      else none
  | .finish i =>
      if i < n ∧ f i = .running then some (Function.update f i .done)
      else none

/-- How many of the `n` per-pair operations are currently running. -/
def running_count (n : Nat) (f : Nat → TaskStatus) : Nat :=
  ((List.range n).filter (fun i => f i = .running)).length

/-- Replay a schedule of events over `n` initially pending operations,
tracking the maximum number that were ever running simultaneously; `none`
when the schedule is invalid. -/
def scan_tasks_run (n : Nat) (schedule : List TaskEvent) :
    Option ((Nat → TaskStatus) × Nat) :=
  schedule.foldl
    (fun acc e => acc.bind (fun fm =>
      (scan_tasks_step n fm.1 e).map
        (fun f2 => (f2, max fm.2 (running_count n f2)))))
    (some (fun _ => .pending, 0))

/-- The schedule of one `IQOptionScanner.start_scanning` cycle
(iqoption_scanner.py lines 87-104): the for-loop acquires the semaphore and
then `await`s each `_scan_pair` to completion before the next iteration, so
the cycle's event order is start 0, finish 0, start 1, finish 1, and so
on. -/
def iq_cycle_schedule (n : Nat) : List TaskEvent :=
  (List.range n).bind (fun i => [TaskEvent.start i, TaskEvent.finish i])

/-- A gather schedule in which six of the thirty per-pair operations have
started and none has finished. -/
def gatherSchedule6 : List TaskEvent :=
  [.start 0, .start 1, .start 2, .start 3, .start 4, .start 5]

/-- Counterexample to C6: one `AutoScanner` cycle over 30 instruments admits
a valid schedule after which six fetch+generate operations are running
simultaneously — `asyncio.gather` at auto_scanner.py lines 54-55 imposes no
concurrency gate, so more than 5 operations can be in flight. -/
theorem bounded_concurrency_counterexample :
    (scan_tasks_run 30 gatherSchedule6).map Prod.snd = some 6
      ∧ ¬(6 ≤ 5) := by
  constructor
  · decide
  · decide

lemma filter_range_lt (n m : Nat) (h : m ≤ n) :
    (List.range n).filter (fun i => decide (i < m)) = List.range m := by
  induction n with
  | zero =>
      obtain rfl : m = 0 := Nat.le_zero.mp h
      rfl
  | succ n ih =>
      rcases Nat.lt_or_ge n m with hn | hn
      · obtain rfl : m = n + 1 := by omega
        rw [List.filter_eq_self.mpr]
        intro a ha
        simp only [decide_eq_true_eq]
        exact List.mem_range.mp ha
      · rw [List.range_succ, List.filter_append, ih hn]
        have : (List.filter (fun i => decide (i < m)) [n]) = [] := by
          simp only [List.filter, decide_eq_true_eq]
          rw [decide_eq_false (by omega)]
        rw [this, List.append_nil]

lemma running_count_if_lt (n k : Nat) (hk : k ≤ n) :
    running_count n (fun i => if i < k then .running else .pending) = k := by
  unfold running_count
  have hcong : ∀ i ∈ List.range n,
      (decide ((if i < k then TaskStatus.running else .pending) = .running))
        = decide (i < k) := by
    intro i _
    by_cases hik : i < k <;> simp [hik]
  rw [List.filter_congr hcong, filter_range_lt n k hk, List.length_range]

lemma scan_tasks_run_starts (n k : Nat) (hk : k ≤ n) :
    scan_tasks_run n ((List.range k).map TaskEvent.start)
      = some (fun i => if i < k then .running else .pending, k) := by
  induction k with
  | zero =>
      have hf : (fun i : Nat => if i < 0 then TaskStatus.running else .pending)
          = fun _ : Nat => TaskStatus.pending := by
        funext i
        simp
      simp [scan_tasks_run, hf]
  | succ k ih =>
      have hk2 : k ≤ n := by omega
      have hfold := ih hk2
      rw [List.range_succ, List.map_append]
      unfold scan_tasks_run at hfold ⊢
      rw [List.foldl_append, hfold]
      simp only [List.map_cons, List.map_nil, List.foldl_cons, List.foldl_nil,
        Option.some_bind]
      have hstep : scan_tasks_step n
          (fun i => if i < k then .running else .pending) (.start k)
          = some (Function.update
              (fun i => if i < k then TaskStatus.running else .pending)
              k .running) := by
        simp only [scan_tasks_step]
        rw [if_pos ⟨by omega, by simp⟩]
      rw [hstep]
      have hupd : Function.update
          (fun i => if i < k then TaskStatus.running else .pending) k .running
          = fun i => if i < k + 1 then .running else .pending := by
        funext i
        by_cases hik : i = k
        · subst hik
          rw [Function.update_same, if_pos (by omega)]
        · rw [Function.update_noteq hik]
          by_cases h2 : i < k
          · rw [if_pos h2, if_pos (by omega)]
          · rw [if_neg h2, if_neg (by omega)]
      simp only [Option.map_some']
      rw [hupd]
      have hrc := running_count_if_lt n (k + 1) hk
      rw [hrc]
      have : max k (k + 1) = k + 1 := by omega
      rw [this]

lemma running_count_none (n : Nat) (f : Nat → TaskStatus)
    (hf : ∀ i, f i ≠ .running) : running_count n f = 0 := by
  unfold running_count
  rw [List.filter_eq_nil_iff.mpr, List.length_nil]
  intro i _
  simp [hf i]

lemma filter_range_eq (n k : Nat) (hk : k < n) :
    (List.range n).filter (fun i => decide (i = k)) = [k] := by
  induction n with
  | zero => omega
  | succ n ih =>
      rw [List.range_succ, List.filter_append]
      rcases Nat.lt_or_ge k n with hkn | hkn
      · rw [ih hkn]
        have h1 : (List.filter (fun i => decide (i = k)) [n]) = [] := by
          simp only [List.filter]
          rw [decide_eq_false (by omega)]
        rw [h1, List.append_nil]
      · obtain rfl : k = n := by omega
        rw [List.filter_eq_nil_iff.mpr, List.nil_append]
        · simp [List.filter]
        · intro a ha
          have := List.mem_range.mp ha
          simp only [decide_eq_true_eq]
          omega

lemma running_count_single (n k : Nat) (hk : k < n) (f : Nat → TaskStatus)
    (hf : ∀ i, f i ≠ .running) :
    running_count n (Function.update f k .running) = 1 := by
  unfold running_count
  have hcong : ∀ i ∈ List.range n,
      (decide (Function.update f k TaskStatus.running i = .running))
        = decide (i = k) := by
    intro i _
    by_cases hik : i = k
    · subst hik
      simp [Function.update]
    · simp [Function.update_noteq hik, hf i, hik]
  rw [List.filter_congr hcong, filter_range_eq n k hk, List.length_singleton]

lemma scan_tasks_run_iq (n k : Nat) (hk : k ≤ n) :
    scan_tasks_run n (iq_cycle_schedule k)
      = some (fun i => if i < k then .done else .pending, min k 1) := by
  induction k with
  | zero =>
      have hf : (fun i : Nat => if i < 0 then TaskStatus.done else .pending)
          = fun _ : Nat => TaskStatus.pending := by
        funext i
        simp
      simp [scan_tasks_run, iq_cycle_schedule, hf]
  | succ k ih =>
      have hk2 : k ≤ n := by omega
      have hfold := ih hk2
      have hsched : iq_cycle_schedule (k + 1)
          = iq_cycle_schedule k ++ [TaskEvent.start k, TaskEvent.finish k] := by
        simp [iq_cycle_schedule, List.range_succ]
      rw [hsched]
      unfold scan_tasks_run at hfold ⊢
      rw [List.foldl_append, hfold]
      simp only [List.foldl_cons, List.foldl_nil, Option.some_bind]
      have hnorun : ∀ i, (fun j => if j < k then TaskStatus.done else .pending) i
          ≠ .running := by
        intro i
        by_cases h2 : i < k <;> simp [h2]
      have hstep1 : scan_tasks_step n
          (fun i => if i < k then .done else .pending) (.start k)
          = some (Function.update
              (fun i => if i < k then TaskStatus.done else .pending)
              k .running) := by
        simp only [scan_tasks_step]
        rw [if_pos ⟨by omega, by simp⟩]
      rw [hstep1]
      simp only [Option.map_some', Option.some_bind]
      have hrc1 := running_count_single n k (by omega)
        (fun i => if i < k then .done else .pending) hnorun
      rw [hrc1]
      have hstep2 : scan_tasks_step n
          (Function.update (fun i => if i < k then TaskStatus.done else .pending)
            k .running) (.finish k)
          = some (Function.update (Function.update
              (fun i => if i < k then TaskStatus.done else .pending)
              k .running) k .done) := by
        simp only [scan_tasks_step]
        rw [if_pos ⟨by omega, by simp [Function.update]⟩]
      rw [hstep2]
      simp only [Option.map_some']
      have hupd : Function.update (Function.update
          (fun i => if i < k then TaskStatus.done else .pending) k .running)
            k .done
          = fun i => if i < k + 1 then .done else .pending := by
        funext i
        by_cases hik : i = k
        · subst hik
          rw [Function.update_same, if_pos (by omega)]
        · rw [Function.update_noteq hik, Function.update_noteq hik]
          by_cases h2 : i < k
          · rw [if_pos h2, if_pos (by omega)]
          · rw [if_neg h2, if_neg (by omega)]
      rw [hupd]
      have hrc2 : running_count n
          (fun i => if i < k + 1 then TaskStatus.done else .pending) = 0 := by
        apply running_count_none
        intro i
        by_cases h2 : i < k + 1 <;> simp [h2]
      rw [hrc2]
      have : max (max (min k 1) 1) 0 = min (k + 1) 1 := by omega
      rw [this]

/-- C6 (amended): `AutoScanner`'s cycle launches all per-instrument
operations through a plain `asyncio.gather` with no concurrency gate, so for
every instrument count `n` a schedule of one cycle reaches `n` simultaneous
fetch+generate operations; only the broker-gated `IQOptionScanner` cycle is
bounded, and because its loop acquires its `Semaphore(5)` and awaits each
scan before the next iteration, at most one (hence at most five) of its
operations is ever in flight. -/
theorem bounded_concurrency_amended :
    (∀ n, (scan_tasks_run n ((List.range n).map TaskEvent.start)).map Prod.snd
        = some n)
      ∧ (∀ n, ((scan_tasks_run n (iq_cycle_schedule n)).map Prod.snd).getD 0
          ≤ 1) := by
  constructor
  · intro n
    rw [scan_tasks_run_starts n n le_rfl]
    rfl
  · intro n
    rw [scan_tasks_run_iq n n le_rfl]
    simp only [Option.map_some', Option.getD_some]
    omega

/-- The slice of `IQOptionSessionManager` state one username touches
(iqoption/session_manager.py lines 16-21): the registry entry
`self.sessions[username]` (a client id, or absent) and the connected flag of
every `IQOptionClient` created so far (client id = creation index).  A
registered id always names an entry of `client_connected`. -/
structure RegistryState where
  session : Option Nat
  client_connected : List Bool
  deriving DecidableEq, Repr

/-- Progress of one `connect_user` call (session_manager.py lines 39-108)
through its suspension points.  `ready`: about to run the body up to its
first await.  `connecting cid`: suspended inside `await client.connect()`
(line 82) with a freshly created, not yet connected client `cid` — and,
crucially, not yet registered, since registration happens at line 89 or 97
only after the await returns.  `finished r`: the call returned `r`. -/
inductive ConnectPhase where
  | ready
  | connecting (cid : Nat)
  | finished (result : Bool)
  deriving DecidableEq, Repr

/-- One cooperative step of a `connect_user` call for the scenario in which
the transport login succeeds without a second factor.  From `ready`: when the
registry already holds a session for the username, `await
client.check_connection()` succeeds and the call returns the reuse success of
lines 64-73; otherwise the body of lines 77-82 runs — the call creates a new
`IQOptionClient` and suspends inside `await client.connect()`.  From
`connecting cid`: the transport login completes, the client becomes
connected (`_finalize_successful_login` sets `self.connected = True`), and
lines 96-99 register it under the username.  No lock guards any of this in
the source. -/
def connect_user_step (st : RegistryState) (ph : ConnectPhase) :
    RegistryState × ConnectPhase :=
  match ph with
  | .ready =>
      match st.session with
      | some _ => (st, .finished true)
      | none =>
          let cid := st.client_connected.length
          ({ st with client_connected := st.client_connected ++ [false] },
           .connecting cid)
  | .connecting cid =>
      ({ session := some cid,
         client_connected := st.client_connected.set cid true },
       .finished true)
  | .finished r => (st, .finished r)

/-- The joint state of the registry and two concurrent `connect_user` calls
for the same username. -/
structure TwoConnectState where
  registry : RegistryState
  task1 : ConnectPhase
  task2 : ConnectPhase
  deriving DecidableEq, Repr

/-- Replay an interleaving of the two calls (`true` steps the first call,
`false` the second), both starting from an empty registry. -/
def two_connect_run (schedule : List Bool) : TwoConnectState :=
  schedule.foldl
    (fun s pick =>
      if pick then
        let r := connect_user_step s.registry s.task1
        { s with registry := r.1, task1 := r.2 }
      else
        let r := connect_user_step s.registry s.task2
        { s with registry := r.1, task2 := r.2 })
    { registry := { session := none, client_connected := [] },
      task1 := .ready, task2 := .ready }

/-- How many live (connected, never disconnected) broker sessions exist. -/
def live_sessions (st : RegistryState) : Nat :=
  (st.client_connected.filter id).length

/-- C7 fails on the code: in the interleaving in which both `connect_user`
calls pass the `username in self.sessions` membership check of line 53 before
either registers at line 97 — possible because `await client.connect()`
suspends between the two and no lock exists — both calls report success and
two connected `IQOptionClient` objects remain, client 0 orphaned (never
disconnected, not registered) and client 1 registered.  The spec requires at
most one live session per user under any interleaving. -/
theorem session_registry_race :
    live_sessions (two_connect_run [true, false, true, false]).registry = 2
      ∧ (two_connect_run [true, false, true, false]).registry.session = some 1
      ∧ (two_connect_run [true, false, true, false]).task1 = .finished true
      ∧ (two_connect_run [true, false, true, false]).task2 = .finished true
      ∧ ¬(2 ≤ 1) := by
  refine ⟨?_, ?_, ?_, ?_, ?_⟩ <;> decide

/-- The mutable connection state of `IQOptionClient`
(scanner/iqoption_client.py lines 30-50) touched by the login paths.
`api = true` models `self.api is not None`. -/
structure ClientState where
  connected : Bool
  api : Bool
  email : Option String
  password : Option String
  account_type : String
  last_error : Option String
  connected_email : Option String
  connected_password : Option String
  connected_account_type : Option String
  last_known_balance : Option ℚ
  awaiting_two_factor : Bool
  two_factor_message : Option String
  deriving DecidableEq, Repr

/-- Outcome of the blocking `self.api.connect()` (or `connect_2fa`) call:
an exception, a failure whose reason does or does not classify as a
second-factor challenge (`_is_two_factor_challenge`), or success. -/
inductive TransportResult where
  | raises
  | failure (is_two_factor : Bool)
  | success
  deriving DecidableEq, Repr

/-- Outcome of the blocking `self.api.get_balance()` call inside
`_finalize_successful_login`: an exception, `None`, or a number. -/
inductive BalanceFetch where
  | raises
  | null
  | value (v : ℚ)
  deriving DecidableEq, Repr

/-- `IQOptionClient._normalize_account_type` (lines 312-319), with Python
`str.strip` dropped: every caller passes unpadded literals. -/
def normalize_account_type (account_type : Option String) : String :=
  match account_type with
  | none => "PRACTICE"
  | some t =>
      let normalized := upperStr t
      if normalized = "PRACTICE" ∨ normalized = "REAL" then normalized
      else "PRACTICE"

/-- `IQOptionClient._clear_connection_state` (lines 286-296). -/
def clear_connection_state (st : ClientState) : ClientState :=
  { st with
    api := false
    connected := false
    connected_email := none
    connected_password := none
    connected_account_type := none
    last_known_balance := none
    awaiting_two_factor := false
    two_factor_message := none }

/-- `IQOptionClient.disconnect` (lines 270-284): best-effort transport close
(external), then `_clear_connection_state`. -/
def client_disconnect (st : ClientState) : ClientState :=
  clear_connection_state st

/-- The message `_finalize_successful_login` stores in `last_error` when the
balance validation fails (lines 433-436). -/
def validation_failed_message : String :=
  "Falha ao validar credenciais. Verifique se o email e senha estao corretos."

/-- `IQOptionClient._finalize_successful_login` (lines 394-443).
`check_connect = none` models an api object without a callable
`check_connect` attribute.  `Except.error (msg, st)` models the method
raising a `RuntimeError` carrying `msg` with the client left in state
`st`. -/
def finalize_successful_login (st : ClientState) (check_connect : Option Bool)
    (balance : BalanceFetch) : Except (String × ClientState) ClientState :=
  if st.api = false then
    .error ("Cliente IQ Option indisponivel apos login.", st)
  else
    let st := { st with
      connected := true
      awaiting_two_factor := false
      two_factor_message := none
      last_error := none }
    match check_connect with
    | some false =>
        .error ("IQ Option disconnected right after login.",
          client_disconnect { st with
            last_error := some "IQ Option disconnected right after login." })
    | _ =>
        match balance with
        | .raises =>
            .error ("Erro ao buscar saldo.",
              client_disconnect { st with
                last_error := some validation_failed_message })
        | .null =>
            .error ("Falha ao obter saldo. Credenciais podem estar incorretas.",
              client_disconnect { st with
                last_error := some validation_failed_message })
        | .value v =>
            let st := { st with last_known_balance := some v }
            if v < 0 then
              .error ("Saldo invalido retornado. Credenciais podem estar incorretas.",
                client_disconnect { st with
                  last_error := some validation_failed_message })
            else
              .ok { st with
                connected_email := st.email
                connected_password := st.password
                connected_account_type := some st.account_type }

/-- Lines 116-152 of `IQOptionClient.connect`: the fresh-login part after the
reuse check.  Interpreted error texts (`_interpret_reason`,
`_interpret_exception`) are abstracted to fixed representative strings; the
claims under scrutiny do not depend on message contents. -/
def connect_fresh (st : ClientState) (transport : TransportResult)
    (check_connect : Option Bool) (balance : BalanceFetch) :
    Bool × ClientState :=
  if st.email = none ∨ st.password = none then
    (false, { st with last_error := some "Missing credentials" })
  else
    let st := { st with api := true }
    match transport with
    | .raises =>
        (false, clear_connection_state { st with
          last_error := some "Resposta invalida recebida da IQ Option." })
    | .failure is_two_factor =>
        if is_two_factor then
          (false, { st with
            awaiting_two_factor := true
            two_factor_message :=
              some "Verificacao pendente. Informe o codigo recebido da IQ Option."
            last_error :=
              some "Verificacao pendente. Informe o codigo recebido da IQ Option." })
        else
          (false, clear_connection_state { st with
            last_error := some "Falha ao conectar ao IQ Option." })
    | .success =>
        match finalize_successful_login st check_connect balance with
        | .ok st2 => (true, st2)
        | .error e =>
            (false, clear_connection_state { e.2 with last_error := some e.1 })

/-- Lines 83-95 of `IQOptionClient.connect`: apply the optional credential
and account-type arguments to the client state and reset the second-factor
flags. -/
def apply_credential_updates (st0 : ClientState)
    (email password account_type : Option String) : ClientState :=
  let st := match email with
    | some e => { st0 with email := some e }
    | none => st0
  let st := match password with
    | some p => { st with password := some p }
    | none => st
  let st := match account_type with
    | some a => { st with account_type := normalize_account_type (some a) }
    | none => st
  { st with
    awaiting_two_factor := false
    two_factor_message := none }

/-- `IQOptionClient.connect` (lines 70-152): availability guard, credential
and account-type updates, the idempotent-reuse branch of lines 103-114
(`change_balance` on an account switch is an external call), then the fresh
login. -/
def client_connect (st0 : ClientState) (iq_available : Bool)
    (email password account_type : Option String)
    (transport : TransportResult) (check_connect : Option Bool)
    (balance : BalanceFetch) : Bool × ClientState :=
  if iq_available = false then
    (false, { st0 with
      last_error := some "Biblioteca IQ Option nao encontrada. Reinstale a aplicacao." })
  else
    let st := apply_credential_updates st0 email password account_type
    let credentials_changed := st.connected_email ≠ none
      ∧ (st.email ≠ st.connected_email ∨ st.password ≠ st.connected_password)
    if st.connected ∧ st.api then
      if credentials_changed then
        connect_fresh (client_disconnect st) transport check_connect balance
      else (true, st)
    else connect_fresh st transport check_connect balance

/-- `IQOptionClient.submit_two_factor_code` (lines 154-185).  The
`_finalize_successful_login` call at line 182 stands outside the method
try-block, so its exception propagates (`Except.error`). -/
def submit_two_factor_code (st : ClientState) (transport : TransportResult)
    (check_connect : Option Bool) (balance : BalanceFetch) :
    Except (String × ClientState) (Bool × ClientState) :=
  if st.awaiting_two_factor = false ∨ st.api = false then
    .ok (false, st)
  else
    match transport with
    | .raises =>
        .ok (false, { st with last_error := some "Erro ao validar codigo." })
    | .failure is_two_factor =>
        if is_two_factor then
          .ok (false, { st with
            awaiting_two_factor := true
            two_factor_message :=
              some "Verificacao pendente. Informe o codigo recebido da IQ Option."
            last_error :=
              some "Verificacao pendente. Informe o codigo recebido da IQ Option." })
        else
          .ok (false, { clear_connection_state st with
            last_error :=
              some "Falha ao conectar ao IQ Option. Verifique suas credenciais." })
    | .success =>
        match finalize_successful_login st check_connect balance with
        | .ok st2 => .ok (true, st2)
        | .error e => .error e

/-- `IQOptionSessionManager.complete_two_factor` (session_manager.py lines
127-145): missing session fails; a failed submission whose client no longer
awaits a second factor triggers `disconnect_user`; an exception from the
submission is caught and reported as failure. -/
def complete_two_factor (client : Option ClientState)
    (transport : TransportResult) (check_connect : Option Bool)
    (balance : BalanceFetch) : Bool × Option ClientState :=
  match client with
  | none => (false, none)
  | some st =>
      match submit_two_factor_code st transport check_connect balance with
      | .ok (b, st2) =>
          if b = false ∧ st2.awaiting_two_factor = false then
            (b, some (client_disconnect st2))
          else (b, some st2)
      | .error e => (false, some e.2)

/-- A balance-fetch outcome the post-login validation must reject: an
exception, a `None`, or a negative number. -/
def bad_balance (balance : BalanceFetch) : Prop :=
  balance = .raises ∨ balance = .null ∨ ∃ v, balance = .value v ∧ v < 0

lemma finalize_ok_balance {st : ClientState} {check_connect : Option Bool}
    {balance : BalanceFetch} {st2 : ClientState}
    (h : finalize_successful_login st check_connect balance = .ok st2) :
    st2.connected = true ∧ ∃ v, balance = .value v ∧ 0 ≤ v := by
  unfold finalize_successful_login at h
  split_ifs at h
  rcases check_connect with _ | b
  · rcases balance with _ | _ | v
    · exact absurd h (by simp)
    · exact absurd h (by simp)
    · simp only at h
      split_ifs at h with hv
      obtain rfl := Except.ok.inj h
      exact ⟨rfl, v, rfl, le_of_not_lt hv⟩
  · rcases b with _ | _
    · exact absurd h (by simp)
    · rcases balance with _ | _ | v
      · exact absurd h (by simp)
      · exact absurd h (by simp)
      · simp only at h
        split_ifs at h with hv
        obtain rfl := Except.ok.inj h
        exact ⟨rfl, v, rfl, le_of_not_lt hv⟩

lemma finalize_bad_balance {st : ClientState} {check_connect : Option Bool}
    {balance : BalanceFetch} (hapi : st.api = true)
    (hbad : bad_balance balance) :
    ∃ e, finalize_successful_login st check_connect balance = .error e
      ∧ e.2.connected = false := by
  unfold finalize_successful_login
  rw [if_neg (by simp [hapi])]
  rcases check_connect with _ | b
  · rcases hbad with rfl | rfl | ⟨v, rfl, hv⟩
    · exact ⟨_, rfl, rfl⟩
    · exact ⟨_, rfl, rfl⟩
    · simp only
      rw [if_pos hv]
      exact ⟨_, rfl, rfl⟩
  · rcases b with _ | _
    · exact ⟨_, rfl, rfl⟩
    · rcases hbad with rfl | rfl | ⟨v, rfl, hv⟩
      · exact ⟨_, rfl, rfl⟩
      · exact ⟨_, rfl, rfl⟩
      · simp only
        rw [if_pos hv]
        exact ⟨_, rfl, rfl⟩

lemma connect_fresh_success {st : ClientState} {check_connect : Option Bool}
    {balance : BalanceFetch}
    (h : (connect_fresh st .success check_connect balance).1 = true) :
    (connect_fresh st .success check_connect balance).2.connected = true
      ∧ ∃ v, balance = .value v ∧ 0 ≤ v := by
  simp only [connect_fresh] at h ⊢
  split_ifs at h ⊢ with hcreds
  split at h
  next st2 heq =>
    simp only [heq]
    exact finalize_ok_balance heq
  next e heq =>
    simp at h

lemma connect_fresh_bad {st : ClientState} {check_connect : Option Bool}
    {balance : BalanceFetch} (hco : st.connected = false)
    (hbad : bad_balance balance) :
    (connect_fresh st .success check_connect balance).1 = false
      ∧ (connect_fresh st .success check_connect balance).2.connected
          = false := by
  simp only [connect_fresh]
  split_ifs with hcreds
  · exact ⟨rfl, hco⟩
  · obtain ⟨e, hfin, hec⟩ :=
      @finalize_bad_balance { st with api := true } check_connect balance
        rfl hbad
    simp [hfin, clear_connection_state]

lemma apply_credential_updates_connected (st : ClientState)
    (email password account_type : Option String) :
    (apply_credential_updates st email password account_type).connected
      = st.connected := by
  rcases email with _ | e <;> rcases password with _ | p <;>
    rcases account_type with _ | a <;> rfl

lemma complete_two_factor_guard {st : ClientState} {check_connect : Option Bool}
    {balance : BalanceFetch}
    (hguard : st.awaiting_two_factor = false ∨ st.api = false) :
    complete_two_factor (some st) .success check_connect balance
      = (if st.awaiting_two_factor = false then
          (false, some (client_disconnect st))
         else (false, some st)) := by
  simp only [complete_two_factor, submit_two_factor_code, if_pos hguard]
  by_cases hA : st.awaiting_two_factor = false <;> simp [hA]

lemma complete_two_factor_ok {st st2 : ClientState}
    {check_connect : Option Bool} {balance : BalanceFetch}
    (hguard : ¬(st.awaiting_two_factor = false ∨ st.api = false))
    (hfin : finalize_successful_login st check_connect balance = .ok st2) :
    complete_two_factor (some st) .success check_connect balance
      = (true, some st2) := by
  simp only [complete_two_factor, submit_two_factor_code, if_neg hguard, hfin]
  simp

lemma complete_two_factor_error {st : ClientState}
    {e : String × ClientState} {check_connect : Option Bool}
    {balance : BalanceFetch}
    (hguard : ¬(st.awaiting_two_factor = false ∨ st.api = false))
    (hfin : finalize_successful_login st check_connect balance = .error e) :
    complete_two_factor (some st) .success check_connect balance
      = (false, some e.2) := by
  simp only [complete_two_factor, submit_two_factor_code, if_neg hguard, hfin]

/-- C8: whenever the transport reports a successful login — through
`connect` or through second-factor completion — the session ends
`Connected` only if the balance fetch succeeds with a non-null,
non-negative value; and when the balance fetch raises, returns `None` or
returns a negative value, the login is reported as a failure and the client
is not left connected. -/
theorem post_login_validation (st : ClientState)
    (email password account_type : Option String)
    (check_connect : Option Bool) (balance : BalanceFetch)
    (hco : st.connected = false) :
    ((client_connect st true email password account_type .success
          check_connect balance).1 = true →
        (client_connect st true email password account_type .success
            check_connect balance).2.connected = true
          ∧ ∃ v, balance = .value v ∧ 0 ≤ v)
      ∧ (bad_balance balance →
          (client_connect st true email password account_type .success
              check_connect balance).1 = false
            ∧ (client_connect st true email password account_type .success
                check_connect balance).2.connected = false)
      ∧ ((complete_two_factor (some st) .success check_connect balance).1
            = true →
          ∃ v, balance = .value v ∧ 0 ≤ v
            ∧ ∀ st2, (complete_two_factor (some st) .success check_connect
                balance).2 = some st2 → st2.connected = true)
      ∧ (bad_balance balance →
          (complete_two_factor (some st) .success check_connect balance).1
              = false
            ∧ ∀ st2, (complete_two_factor (some st) .success check_connect
                balance).2 = some st2 → st2.connected = false) := by
  have hcu : (apply_credential_updates st email password account_type).connected
      = false := by
    rw [apply_credential_updates_connected]
    exact hco
  have hred : client_connect st true email password account_type .success
      check_connect balance
      = connect_fresh (apply_credential_updates st email password account_type)
          .success check_connect balance := by
    simp only [client_connect]
    rw [if_neg (by simp), if_neg (by simp [hcu])]
  refine ⟨?_, ?_, ?_, ?_⟩
  · intro h1
    rw [hred] at h1 ⊢
    exact connect_fresh_success h1
  · intro hb
    rw [hred]
    exact connect_fresh_bad hcu hb
  · intro h1
    by_cases hguard : st.awaiting_two_factor = false ∨ st.api = false
    · exfalso
      rw [complete_two_factor_guard hguard] at h1
      by_cases hA : st.awaiting_two_factor = false <;> simp [hA] at h1
    · rcases hfin : finalize_successful_login st check_connect balance
          with e | st2
      · exfalso
        rw [complete_two_factor_error hguard hfin] at h1
        exact absurd h1 (by simp)
      · obtain ⟨hc, v, hv, hnn⟩ := finalize_ok_balance hfin
        refine ⟨v, hv, hnn, ?_⟩
        intro st3 hst3
        rw [complete_two_factor_ok hguard hfin] at hst3
        obtain rfl : st2 = st3 := Option.some.inj hst3
        exact hc
  · intro hb
    by_cases hguard : st.awaiting_two_factor = false ∨ st.api = false
    · rw [complete_two_factor_guard hguard]
      by_cases hA : st.awaiting_two_factor = false
      · rw [if_pos hA]
        refine ⟨rfl, ?_⟩
        intro st3 hst3
        obtain rfl : client_disconnect st = st3 := Option.some.inj hst3
        rfl
      · rw [if_neg hA]
        refine ⟨rfl, ?_⟩
        intro st3 hst3
        obtain rfl : st = st3 := Option.some.inj hst3
        exact hco
    · have hapi : st.api = true := by
        rcases h2 : st.api with _ | _
        · exact absurd (Or.inr h2) hguard
        · rfl
      obtain ⟨e0, hfin0, hec0⟩ := finalize_bad_balance hapi hb
      rcases hfin : finalize_successful_login st check_connect balance
          with e | st2
      · rw [hfin] at hfin0
        obtain rfl : e = e0 := Except.error.inj hfin0
        rw [complete_two_factor_error hguard hfin]
        refine ⟨rfl, ?_⟩
        intro st3 hst3
        obtain rfl : e.2 = st3 := Option.some.inj hst3
        exact hec0
      · rw [hfin] at hfin0
        exact absurd hfin0 (by simp)

/-- A disconnected, credentialled client for the C8 witness. -/
def stFresh : ClientState :=
  { connected := false, api := false, email := some "user", password := some "pw",
    account_type := "PRACTICE", last_error := none, connected_email := none,
    connected_password := none, connected_account_type := none,
    last_known_balance := none, awaiting_two_factor := false,
    two_factor_message := none }

/-- Witness for C8: a transport-successful login whose balance fetch raises
is reported as a failure and leaves the client disconnected. -/
theorem post_login_validation_witness :
    (client_connect stFresh true none none none .success none .raises).1
        = false
      ∧ (client_connect stFresh true none none none .success none
          .raises).2.connected = false :=
  (post_login_validation stFresh none none none none .raises rfl).2.1
    (Or.inl rfl)

end RickTrader
